import Mathlib

/-
Verification of the user-registration core of a minimal blog application:
an Express handler `POST /api/register` (src/App.js, lines 59-69) backed by
a `users` table with UNIQUE constraints on `username` and `email`
(src/App.js, lines 13-18), with the password hashed by bcryptjs before the
insert.  The handler, the store's visible contract and the hashing step are
embedded below as executable Lean definitions.
-/

namespace BlogApp

/-- JSON values, as produced by Express `res.json`. -/
inductive JsonValue where
  | null
  | str (s : String)
  | num (n : Int)
  | arr (xs : List JsonValue)
  | obj (fields : List (String × JsonValue))
deriving Repr, Inhabited

/-- Modelled from the spec: `bcrypt.hash(password, workFactor)` from the external
bcryptjs library, a "deterministic-cost, randomized-salt one-way hashing
algorithm".  The per-call random salt is made explicit as the `salt` argument.
The output follows the bcrypt string layout `$2a$cost$salt-then-digest`: the
work factor, the salt (here in unary) and a password-derived part are embedded
in the output so that comparison can re-derive a verdict; the embedded
password part stands in for bcrypt's one-way digest, which no computable model
can reproduce faithfully. -/
def bcryptHash (salt : Nat) (password : String) (workFactor : Nat) : String :=
  "$2a$" ++ toString workFactor ++ "$" ++ String.mk (List.replicate salt 'x')
    ++ "$" ++ password

/-- Modelled from the spec: bcrypt verification ("confirm a password against the
stored hash"). A candidate password verifies against a hash when the hash's
final, digest field matches the digest that the candidate produces. -/
def bcryptCompare (password hash : String) : Bool :=
  List.isSuffixOf ("$" ++ password).data hash.data

/-- A row of the `users` table (src/App.js lines 13-18):
`id` (generated key), `username` (UNIQUE NOT NULL), `email` (UNIQUE NOT NULL),
`password` (NOT NULL, holds the hashed password).  The generated UUID is
modelled as a store-assigned natural number. -/
structure UserRow where
  id : Nat
  username : String
  email : String
  password : String
deriving Repr, DecidableEq, Inhabited

/-- The User Store's state: the rows of the `users` table plus the generator
for the next assigned id. -/
structure StoreState where
  rows : List UserRow
  nextId : Nat
deriving Repr, DecidableEq, Inhabited

/-- The record the handler passes to the store's insert
(src/App.js line 65: `insert([{ username, email, password: hashedPassword }])`).
`username` and `email` come from destructuring the request body, so an absent
field arrives as `none` (JavaScript `undefined`). -/
structure InsertPayload where
  username : Option String
  email : Option String
  password : String
deriving Repr, DecidableEq

/-- Does some stored row already use this username? (UNIQUE constraint check.) -/
def usernameTaken (st : StoreState) (u : String) : Bool :=
  st.rows.any (fun r => r.username = u)

/-- Does some stored row already use this email? (UNIQUE constraint check.) -/
def emailTaken (st : StoreState) (e : String) : Bool :=
  st.rows.any (fun r => r.email = e)

/-- The store's insert, from the SQL schema (src/App.js lines 13-18): NOT NULL
on every column and UNIQUE constraints on `username` and `email` decide
success; on success exactly the one new row is appended and assigned a fresh
id.  Errors carry the store's message, as surfaced in `error.message`. -/
def insertUser (st : StoreState) (p : InsertPayload) :
    Except String (UserRow × StoreState) :=
  match p.username, p.email with
  | some u, some e =>
    if usernameTaken st u then
      Except.error "duplicate key value violates unique constraint \"users_username_key\""
    else if emailTaken st e then
      Except.error "duplicate key value violates unique constraint \"users_email_key\""
    else
      let row : UserRow := ⟨st.nextId, u, e, p.password⟩
      Except.ok (row, ⟨st.rows ++ [row], st.nextId + 1⟩)
  | none, _ =>
      Except.error "null value in column \"username\" of relation \"users\" violates not-null constraint"
  | some _, none =>
      Except.error "null value in column \"email\" of relation \"users\" violates not-null constraint"

/-- The inserted user representation as the store returns it in `data`:
an array holding the inserted row with every column, the stored password
hash included. -/
def rowToJson (r : UserRow) : JsonValue :=
  JsonValue.obj [("id", JsonValue.num r.id), ("username", JsonValue.str r.username),
    ("email", JsonValue.str r.email), ("password", JsonValue.str r.password)]

/-- The Supabase client call `supabase.from('users').insert([...])`
(src/App.js lines 63-65): resolves to `{ data, error }`, here an
`Except`: `error.message` on failure, `data` (the inserted representation)
and the updated store on success. -/
def supabaseInsert (st : StoreState) (p : InsertPayload) :
    Except String (JsonValue × StoreState) :=
  match insertUser st p with
  | Except.error m => Except.error m
  | Except.ok (row, st') => Except.ok (JsonValue.arr [rowToJson row], st')

/-- An HTTP response: status code and JSON body. -/
structure HttpResponse where
  status : Nat
  body : JsonValue
deriving Repr

/-- The handler's outcome-to-response mapping (src/App.js lines 67-68):
`if (error) return res.status(400).json({ error: error.message });`
`res.status(201).json(data);` -/
def respondToStore (result : Except String JsonValue) : HttpResponse :=
  match result with
  | Except.error m => ⟨400, JsonValue.obj [("error", JsonValue.str m)]⟩
  | Except.ok data => ⟨201, data⟩

/-- The hashing step `await bcrypt.hash(password, 10)` (src/App.js line 61) on
the destructured `password` field: an absent field destructures to
`undefined`, on which bcryptjs rejects with an Illegal-arguments error
instead of returning a hash. -/
def bcryptHashStep (salt : Nat) (password : Option String) (workFactor : Nat) :
    Except String String :=
  match password with
  | some p => Except.ok (bcryptHash salt p workFactor)
  | none => Except.error "Illegal arguments: undefined, number"

/-- A registration request body (src/App.js line 60 destructures
`{ username, email, password } = req.body`); `extra` carries any other
fields the JSON body may hold, which the destructuring never reads. -/
structure RequestBody where
  username : Option String
  email : Option String
  password : Option String
  extra : List (String × JsonValue)
deriving Repr

/-- What a run of the handler produces: either an HTTP response was sent, or a
rejected promise escaped the handler (there is no try/catch in
src/App.js lines 59-69) as an uncaught error.  Both record the store state
after the run. -/
inductive HandlerOutcome where
  | response (r : HttpResponse) (st : StoreState)
  | uncaught (msg : String) (st : StoreState)
deriving Repr

/-- The registration handler `app.post('/api/register', ...)`
(src/App.js lines 59-69): destructure the body, hash the password with work
factor 10, insert `{ username, email, password: hashedPassword }`, respond 400
with the store's error message on store failure and 201 with the store's
`data` on success.  A failure of the hashing step is not caught anywhere in
the handler, so it escapes as an uncaught error. -/
def registerHandler (salt : Nat) (req : RequestBody) (st : StoreState) :
    HandlerOutcome :=
  match bcryptHashStep salt req.password 10 with
  | Except.error e => HandlerOutcome.uncaught e st
  | Except.ok hashedPassword =>
    match supabaseInsert st ⟨req.username, req.email, hashedPassword⟩ with
    | Except.error m => HandlerOutcome.response (respondToStore (Except.error m)) st
    | Except.ok (data, st') => HandlerOutcome.response (respondToStore (Except.ok data)) st'

/-- Store states reachable through the registration flow: the empty table, or
any successful insert applied to a reachable state. -/
inductive Reachable : StoreState → Prop where
  | init : Reachable ⟨[], 0⟩
  | step (st : StoreState) (p : InsertPayload) (row : UserRow) (st' : StoreState) :
      Reachable st → insertUser st p = Except.ok (row, st') → Reachable st'

/-- The store invariant: no two rows share a username, and no two rows share
an email. -/
def UniqueCreds (st : StoreState) : Prop :=
  st.rows.Pairwise (fun a b => a.username ≠ b.username ∧ a.email ≠ b.email)

/-- The state a handler run leaves the store in, whatever the outcome. -/
def outcomeState : HandlerOutcome → StoreState
  | HandlerOutcome.response _ st => st
  | HandlerOutcome.uncaught _ st => st

/- Helper lemmas about the hash model. -/

theorem length_bcryptHash (salt : Nat) (p : String) :
    (bcryptHash salt p 10).length = 8 + salt + p.length := by
  have h4 : "$2a$".length = 4 := rfl
  have h2 : (toString (10:Nat)).length = 2 := rfl
  have h1 : "$".length = 1 := rfl
  simp only [bcryptHash, String.length_append, String.length_mk,
    List.length_replicate, h4, h2, h1]
  omega

theorem bcryptHash_ne_password (salt : Nat) (p : String) :
    bcryptHash salt p 10 ≠ p := by
  intro h
  have := congrArg String.length h
  rw [length_bcryptHash] at this
  omega

theorem bcryptHash_salt_inj (s₁ s₂ : Nat) (p : String) (h : s₁ ≠ s₂) :
    bcryptHash s₁ p 10 ≠ bcryptHash s₂ p 10 := by
  intro he
  have := congrArg String.length he
  rw [length_bcryptHash, length_bcryptHash] at this
  omega

theorem bcryptCompare_bcryptHash (salt : Nat) (p : String) (c : Nat) :
    bcryptCompare p (bcryptHash salt p c) = true := by
  rw [bcryptCompare, List.isSuffixOf_iff_suffix]
  have hd : (bcryptHash salt p c).data
      = ("$2a$" ++ toString c ++ "$" ++ String.mk (List.replicate salt 'x')).data
        ++ ("$" ++ p).data := by
    simp only [bcryptHash, String.data_append, List.append_assoc]
  rw [hd]
  exact List.suffix_append _ _

/- Helper lemmas about the store model. -/

theorem usernameTaken_eq_false_iff (st : StoreState) (u : String) :
    usernameTaken st u = false ↔ ∀ r ∈ st.rows, r.username ≠ u := by
  simp [usernameTaken]

theorem emailTaken_eq_false_iff (st : StoreState) (e : String) :
    emailTaken st e = false ↔ ∀ r ∈ st.rows, r.email ≠ e := by
  simp [emailTaken]

theorem insertUser_ok_elim {st : StoreState} {p : InsertPayload} {row : UserRow}
    {st' : StoreState} (h : insertUser st p = Except.ok (row, st')) :
    ∃ u e, p.username = some u ∧ p.email = some e ∧
      usernameTaken st u = false ∧ emailTaken st e = false ∧
      row = ⟨st.nextId, u, e, p.password⟩ ∧
      st' = ⟨st.rows ++ [row], st.nextId + 1⟩ := by
  obtain ⟨pu, pe, pw⟩ := p
  cases pu with
  | none => simp [insertUser] at h
  | some u =>
    cases pe with
    | none => simp [insertUser] at h
    | some e =>
      by_cases hu : usernameTaken st u
      · simp [insertUser, hu] at h
      · by_cases he : emailTaken st e
        · simp [insertUser, hu, he] at h
        · simp only [insertUser, hu, he, Bool.false_eq_true, if_false,
            Except.ok.injEq, Prod.mk.injEq] at h
          exact ⟨u, e, rfl, rfl, by simp [hu], by simp [he],
            h.1.symm, by rw [← h.1]; exact h.2.symm⟩

theorem insertUser_ok_intro (st : StoreState) (u e pw : String)
    (hu : usernameTaken st u = false) (he : emailTaken st e = false) :
    insertUser st ⟨some u, some e, pw⟩
      = Except.ok (⟨st.nextId, u, e, pw⟩,
          ⟨st.rows ++ [⟨st.nextId, u, e, pw⟩], st.nextId + 1⟩) := by
  simp [insertUser, hu, he]

theorem insertUser_error_of_usernameTaken (st : StoreState) (p : InsertPayload)
    (u : String) (hpu : p.username = some u) (hu : usernameTaken st u = true) :
    ∃ m, insertUser st p = Except.error m := by
  obtain ⟨pu, pe, pw⟩ := p
  cases hpu
  cases pe with
  | none => exact ⟨_, rfl⟩
  | some e =>
    exact ⟨"duplicate key value violates unique constraint \"users_username_key\"",
      by simp [insertUser, hu]⟩

theorem insertUser_preserves_uniqueCreds {st : StoreState} {p : InsertPayload}
    {row : UserRow} {st' : StoreState} (hinv : UniqueCreds st)
    (h : insertUser st p = Except.ok (row, st')) : UniqueCreds st' := by
  obtain ⟨u, e, hpu, hpe, hu, he, hrow, hst'⟩ := insertUser_ok_elim h
  subst hst'
  unfold UniqueCreds at *
  rw [List.pairwise_append]
  refine ⟨hinv, by simp, ?_⟩
  intro a ha b hb
  simp only [List.mem_singleton] at hb
  subst hb
  subst hrow
  exact ⟨(usernameTaken_eq_false_iff st u).mp hu a ha,
         (emailTaken_eq_false_iff st e).mp he a ha⟩

/- Helper lemmas about the handler. -/

theorem registerHandler_hash_fail (salt : Nat) (req : RequestBody)
    (st : StoreState) (h : req.password = none) :
    registerHandler salt req st
      = HandlerOutcome.uncaught "Illegal arguments: undefined, number" st := by
  simp [registerHandler, bcryptHashStep, h]

theorem registerHandler_insert_error (salt : Nat) (req : RequestBody)
    (st : StoreState) (p m : String) (hp : req.password = some p)
    (hm : insertUser st ⟨req.username, req.email, bcryptHash salt p 10⟩
            = Except.error m) :
    registerHandler salt req st
      = HandlerOutcome.response
          ⟨400, JsonValue.obj [("error", JsonValue.str m)]⟩ st := by
  simp [registerHandler, bcryptHashStep, hp, supabaseInsert, hm, respondToStore]

theorem registerHandler_insert_ok (salt : Nat) (req : RequestBody)
    (st : StoreState) (p : String) (row : UserRow) (st' : StoreState)
    (hp : req.password = some p)
    (hk : insertUser st ⟨req.username, req.email, bcryptHash salt p 10⟩
            = Except.ok (row, st')) :
    registerHandler salt req st
      = HandlerOutcome.response ⟨201, JsonValue.arr [rowToJson row]⟩ st' := by
  simp [registerHandler, bcryptHashStep, hp, supabaseInsert, hk, respondToStore]

/-- Claim C1: when the store insert succeeds, the handler responds 201
with a body equal to the inserted user representation exactly as the store
returned it, with no field removed or redacted — the stored password hash
included. -/
theorem register_insert_ok_responds_201_with_store_data
    (salt : Nat) (req : RequestBody) (st : StoreState) (p : String)
    (data : JsonValue) (st' : StoreState) (hp : req.password = some p)
    (hok : supabaseInsert st ⟨req.username, req.email, bcryptHash salt p 10⟩
             = Except.ok (data, st')) :
    registerHandler salt req st = HandlerOutcome.response ⟨201, data⟩ st' ∧
    ∃ row, insertUser st ⟨req.username, req.email, bcryptHash salt p 10⟩
             = Except.ok (row, st') ∧
      data = JsonValue.arr [rowToJson row] ∧
      rowToJson row = JsonValue.obj [("id", JsonValue.num row.id),
        ("username", JsonValue.str row.username),
        ("email", JsonValue.str row.email),
        ("password", JsonValue.str row.password)] := by
  cases hins : insertUser st ⟨req.username, req.email, bcryptHash salt p 10⟩ with
  | error m =>
    exact absurd hok (by simp [supabaseInsert, hins])
  | ok x =>
    obtain ⟨row, st''⟩ := x
    simp only [supabaseInsert, hins, Except.ok.injEq, Prod.mk.injEq] at hok
    obtain ⟨hdata, hst⟩ := hok
    subst hdata
    subst hst
    constructor
    · exact registerHandler_insert_ok salt req st p row st'' hp hins
    · exact ⟨row, rfl, rfl, rfl⟩

/-- Claim C1 witness: a concrete successful registration from the empty store
responds 201 with the store's returned representation. -/
theorem register_insert_ok_responds_201_with_store_data_witness :
    registerHandler 0 ⟨some "alice", some "alice@example.com", some "s3cret", []⟩ ⟨[], 0⟩
      = HandlerOutcome.response
          ⟨201, JsonValue.arr
            [rowToJson ⟨0, "alice", "alice@example.com", bcryptHash 0 "s3cret" 10⟩]⟩
          ⟨[⟨0, "alice", "alice@example.com", bcryptHash 0 "s3cret" 10⟩], 1⟩ ∧
    ∃ row, insertUser ⟨[], 0⟩
          ⟨some "alice", some "alice@example.com", bcryptHash 0 "s3cret" 10⟩
        = Except.ok (row,
            ⟨[⟨0, "alice", "alice@example.com", bcryptHash 0 "s3cret" 10⟩], 1⟩) ∧
      JsonValue.arr [rowToJson ⟨0, "alice", "alice@example.com", bcryptHash 0 "s3cret" 10⟩]
        = JsonValue.arr [rowToJson row] ∧
      rowToJson row = JsonValue.obj [("id", JsonValue.num row.id),
        ("username", JsonValue.str row.username),
        ("email", JsonValue.str row.email),
        ("password", JsonValue.str row.password)] :=
  register_insert_ok_responds_201_with_store_data 0
    ⟨some "alice", some "alice@example.com", some "s3cret", []⟩ ⟨[], 0⟩ "s3cret"
    (JsonValue.arr [rowToJson ⟨0, "alice", "alice@example.com", bcryptHash 0 "s3cret" 10⟩])
    ⟨[⟨0, "alice", "alice@example.com", bcryptHash 0 "s3cret" 10⟩], 1⟩ rfl rfl

/-- Claim C2: whenever the store call reports an error — of any kind — the
handler responds 400 with body carrying exactly the store's error message;
the outcome-to-response mapping sends every error, whatever its kind, to
status 400 and never to any other failure status. -/
theorem register_store_error_responds_400_with_message
    (salt : Nat) (req : RequestBody) (st : StoreState) (p m : String)
    (hp : req.password = some p)
    (herr : supabaseInsert st ⟨req.username, req.email, bcryptHash salt p 10⟩
              = Except.error m) :
    registerHandler salt req st
      = HandlerOutcome.response
          ⟨400, JsonValue.obj [("error", JsonValue.str m)]⟩ st ∧
    ∀ m' : String, respondToStore (Except.error m')
      = ⟨400, JsonValue.obj [("error", JsonValue.str m')]⟩ := by
  refine ⟨?_, fun m' => rfl⟩
  cases hins : insertUser st ⟨req.username, req.email, bcryptHash salt p 10⟩ with
  | error m'' =>
    simp only [supabaseInsert, hins, Except.error.injEq] at herr
    subst herr
    exact registerHandler_insert_error salt req st p m'' hp hins
  | ok x =>
    obtain ⟨row, st''⟩ := x
    exact absurd herr (by simp [supabaseInsert, hins])

/-- Claim C2 witness: registering a username that already exists yields 400
carrying the store's duplicate-key message. -/
theorem register_store_error_responds_400_with_message_witness :
    registerHandler 0 ⟨some "bob", some "bob2@example.com", some "pw", []⟩
        ⟨[⟨0, "bob", "bob@example.com", "h"⟩], 1⟩
      = HandlerOutcome.response
          ⟨400, JsonValue.obj [("error", JsonValue.str
            "duplicate key value violates unique constraint \"users_username_key\"")]⟩
          ⟨[⟨0, "bob", "bob@example.com", "h"⟩], 1⟩ ∧
    ∀ m' : String, respondToStore (Except.error m')
      = ⟨400, JsonValue.obj [("error", JsonValue.str m')]⟩ :=
  register_store_error_responds_400_with_message 0
    ⟨some "bob", some "bob2@example.com", some "pw", []⟩
    ⟨[⟨0, "bob", "bob@example.com", "h"⟩], 1⟩ "pw"
    "duplicate key value violates unique constraint \"users_username_key\"" rfl rfl

/-- Claim C3: registration writes exactly one row on success (the store state
becomes the old rows plus the single new row), writes zero rows on any
failure (the store state is returned unchanged, in particular when the
submitted username already exists), and performs no partial writes and no
retries. -/
theorem register_write_effects (salt : Nat) (req : RequestBody) (st : StoreState) :
    (∀ e st₂, registerHandler salt req st = HandlerOutcome.uncaught e st₂ →
      st₂ = st) ∧
    (∀ p m, req.password = some p →
      insertUser st ⟨req.username, req.email, bcryptHash salt p 10⟩
        = Except.error m →
      registerHandler salt req st
        = HandlerOutcome.response
            ⟨400, JsonValue.obj [("error", JsonValue.str m)]⟩ st) ∧
    (∀ p row st', req.password = some p →
      insertUser st ⟨req.username, req.email, bcryptHash salt p 10⟩
        = Except.ok (row, st') →
      registerHandler salt req st
        = HandlerOutcome.response ⟨201, JsonValue.arr [rowToJson row]⟩ st' ∧
      st'.rows = st.rows ++ [row]) ∧
    (∀ p u, req.password = some p → req.username = some u →
      usernameTaken st u = true →
      ∃ m, registerHandler salt req st
        = HandlerOutcome.response
            ⟨400, JsonValue.obj [("error", JsonValue.str m)]⟩ st) := by
  refine ⟨?_, ?_, ?_, ?_⟩
  · intro e st₂ h
    cases hp : req.password with
    | none =>
      rw [registerHandler_hash_fail salt req st hp] at h
      cases h
      rfl
    | some p =>
      cases hins : insertUser st ⟨req.username, req.email, bcryptHash salt p 10⟩ with
      | error m =>
        rw [registerHandler_insert_error salt req st p m hp hins] at h
        exact absurd h (by simp)
      | ok x =>
        obtain ⟨row, st'⟩ := x
        rw [registerHandler_insert_ok salt req st p row st' hp hins] at h
        exact absurd h (by simp)
  · intro p m hp hm
    exact registerHandler_insert_error salt req st p m hp hm
  · intro p row st' hp hk
    refine ⟨registerHandler_insert_ok salt req st p row st' hp hk, ?_⟩
    obtain ⟨u, e, _, _, _, _, _, hst'⟩ := insertUser_ok_elim hk
    rw [hst']
  · intro p u hp hu htaken
    obtain ⟨m, hm⟩ := insertUser_error_of_usernameTaken st
      ⟨req.username, req.email, bcryptHash salt p 10⟩ u hu htaken
    exact ⟨m, registerHandler_insert_error salt req st p m hp hm⟩

/-- Claim C3 witness: a concrete successful registration appends exactly the
one new row to the previously empty store. -/
theorem register_write_effects_witness :
    registerHandler 2 ⟨some "carla", some "carla@example.com", some "pw1", []⟩ ⟨[], 0⟩
      = HandlerOutcome.response
          ⟨201, JsonValue.arr
            [rowToJson ⟨0, "carla", "carla@example.com", bcryptHash 2 "pw1" 10⟩]⟩
          ⟨[⟨0, "carla", "carla@example.com", bcryptHash 2 "pw1" 10⟩], 1⟩ ∧
    (⟨[⟨0, "carla", "carla@example.com", bcryptHash 2 "pw1" 10⟩], 1⟩
        : StoreState).rows
      = ([] : List UserRow) ++ [⟨0, "carla", "carla@example.com", bcryptHash 2 "pw1" 10⟩] :=
  (register_write_effects 2 ⟨some "carla", some "carla@example.com", some "pw1", []⟩
      ⟨[], 0⟩).2.2.1 "pw1"
    ⟨0, "carla", "carla@example.com", bcryptHash 2 "pw1" 10⟩
    ⟨[⟨0, "carla", "carla@example.com", bcryptHash 2 "pw1" 10⟩], 1⟩ rfl rfl

/-- Claim C4 counterexample: the handler body has no try/catch, so a failure
of the hashing step is not converted into an HTTP response.  On a request
whose password field is absent, bcryptjs rejects and the rejection escapes
the handler as an uncaught error: no response is sent. -/
theorem register_hash_failure_escapes_uncaught :
    registerHandler 0 ⟨some "eve", some "eve@example.com", none, []⟩ ⟨[], 0⟩
      = HandlerOutcome.uncaught "Illegal arguments: undefined, number" ⟨[], 0⟩ ∧
    ¬ ∃ r st', registerHandler 0 ⟨some "eve", some "eve@example.com", none, []⟩ ⟨[], 0⟩
      = HandlerOutcome.response r st' := by
  refine ⟨rfl, ?_⟩
  rintro ⟨r, st', h⟩
  exact HandlerOutcome.noConfusion h

/-- Claim C4 as amended: every store-reported failure is caught inside the
handler and converted into an HTTP response (the handler always responds
whenever the hashing step returns a hash), but a failure of the hashing step
itself is not caught and escapes the handler as an uncaught error. -/
theorem register_store_failures_caught_hash_failures_uncaught
    (salt : Nat) (req : RequestBody) (st : StoreState) :
    (∀ p, req.password = some p →
      ∃ r st', registerHandler salt req st = HandlerOutcome.response r st') ∧
    (req.password = none →
      registerHandler salt req st
        = HandlerOutcome.uncaught "Illegal arguments: undefined, number" st) := by
  constructor
  · intro p hp
    cases hins : insertUser st ⟨req.username, req.email, bcryptHash salt p 10⟩ with
    | error m =>
      exact ⟨_, st, registerHandler_insert_error salt req st p m hp hins⟩
    | ok x =>
      obtain ⟨row, st'⟩ := x
      exact ⟨_, st', registerHandler_insert_ok salt req st p row st' hp hins⟩
  · intro hp
    exact registerHandler_hash_fail salt req st hp

/-- Claim C4 (amended) witness: on a concrete request carrying a password the
handler responds, and on the same request without a password the hashing
failure escapes uncaught. -/
theorem register_store_failures_caught_hash_failures_uncaught_witness :
    (∃ r st', registerHandler 1 ⟨some "frank", some "frank@example.com", some "pw2", []⟩
        ⟨[], 0⟩ = HandlerOutcome.response r st') ∧
    registerHandler 1 ⟨some "frank", some "frank@example.com", none, []⟩ ⟨[], 0⟩
      = HandlerOutcome.uncaught "Illegal arguments: undefined, number" ⟨[], 0⟩ :=
  ⟨(register_store_failures_caught_hash_failures_uncaught 1
      ⟨some "frank", some "frank@example.com", some "pw2", []⟩ ⟨[], 0⟩).1 "pw2" rfl,
   (register_store_failures_caught_hash_failures_uncaught 1
      ⟨some "frank", some "frank@example.com", none, []⟩ ⟨[], 0⟩).2 rfl⟩

/-- Claim C5: for every registration request carrying a password, the
credential the handler hands to the store — and hence every row a handler
run adds to the store — carries exactly hash(password, workFactor=10); the
raw submitted password is never stored, and the stored value differs from
the raw password. -/
theorem register_persists_only_bcrypt_hash (salt : Nat) (req : RequestBody)
    (st : StoreState) (p : String) (hp : req.password = some p) :
    (∀ row ∈ (outcomeState (registerHandler salt req st)).rows,
        row ∉ st.rows →
        row.password = bcryptHash salt p 10 ∧ row.password ≠ p) ∧
    bcryptHash salt p 10 ≠ p := by
  refine ⟨?_, bcryptHash_ne_password salt p⟩
  intro row hrow hnot
  cases hins : insertUser st ⟨req.username, req.email, bcryptHash salt p 10⟩ with
  | error m =>
    rw [registerHandler_insert_error salt req st p m hp hins] at hrow
    exact absurd hrow (by simp [outcomeState, hnot])
  | ok x =>
    obtain ⟨nrow, st'⟩ := x
    rw [registerHandler_insert_ok salt req st p nrow st' hp hins] at hrow
    obtain ⟨u, e, _, _, _, _, hrow_eq, hst'⟩ := insertUser_ok_elim hins
    rw [hst'] at hrow
    simp only [outcomeState] at hrow
    rcases List.mem_append.mp hrow with hmem | hmem
    · exact absurd hmem hnot
    · rw [List.mem_singleton] at hmem
      subst hmem
      rw [hrow_eq]
      exact ⟨rfl, bcryptHash_ne_password salt p⟩

/-- Claim C5 witness: a concrete registration stores the bcrypt hash of the
submitted password, which differs from the raw password. -/
theorem register_persists_only_bcrypt_hash_witness :
    (∀ row ∈ (outcomeState (registerHandler 4
        ⟨some "gina", some "gina@example.com", some "pw3", []⟩ ⟨[], 0⟩)).rows,
        row ∉ (⟨[], 0⟩ : StoreState).rows →
        row.password = bcryptHash 4 "pw3" 10 ∧ row.password ≠ "pw3") ∧
    bcryptHash 4 "pw3" 10 ≠ "pw3" :=
  register_persists_only_bcrypt_hash 4
    ⟨some "gina", some "gina@example.com", some "pw3", []⟩ ⟨[], 0⟩ "pw3" rfl

/-- Claim C6: hashing the same password under two different salts — the model
of two successive calls of the randomized-salt hash — yields two different
hash outputs, and both outputs verify against the original password. -/
theorem bcryptHash_salted_twice_distinct_both_verify (p : String) (s₁ s₂ : Nat)
    (h : s₁ ≠ s₂) :
    bcryptHash s₁ p 10 ≠ bcryptHash s₂ p 10 ∧
    bcryptCompare p (bcryptHash s₁ p 10) = true ∧
    bcryptCompare p (bcryptHash s₂ p 10) = true :=
  ⟨bcryptHash_salt_inj s₁ s₂ p h,
   bcryptCompare_bcryptHash s₁ p 10,
   bcryptCompare_bcryptHash s₂ p 10⟩

/-- Claim C6 witness: two concrete calls with distinct salts produce distinct
hashes of "s3cret" that both verify. -/
theorem bcryptHash_salted_twice_distinct_both_verify_witness :
    bcryptHash 0 "s3cret" 10 ≠ bcryptHash 1 "s3cret" 10 ∧
    bcryptCompare "s3cret" (bcryptHash 0 "s3cret" 10) = true ∧
    bcryptCompare "s3cret" (bcryptHash 1 "s3cret" 10) = true :=
  bcryptHash_salted_twice_distinct_both_verify "s3cret" 0 1 (by decide)

/-- The store rejects an insert whose email duplicates a stored one when the
username itself is fresh, with the email unique-constraint message. -/
theorem insertUser_error_of_emailTaken (st : StoreState) (p : InsertPayload)
    (u e : String) (hpu : p.username = some u) (hpe : p.email = some e)
    (hu : usernameTaken st u = false) (he : emailTaken st e = true) :
    insertUser st p
      = Except.error
          "duplicate key value violates unique constraint \"users_email_key\"" := by
  obtain ⟨pu', pe', pw⟩ := p
  cases hpu
  cases hpe
  simp [insertUser, hu, he]

/-- Claim C7: every store state reachable through the registration flow keeps
usernames pairwise distinct and emails pairwise distinct — every successful
insert preserves the invariant — and it is the store's own uniqueness
constraints that enforce it: the store's insert rejects any payload that
would duplicate a stored username or email, in every state and for every
payload, with no help from the handler. -/
theorem store_unique_username_email_invariant (st : StoreState)
    (h : Reachable st) :
    UniqueCreds st ∧
    ∀ (st₀ : StoreState) (p : InsertPayload) (u e : String),
      p.username = some u → p.email = some e →
      (usernameTaken st₀ u = true ∨ emailTaken st₀ e = true) →
      ∃ m, insertUser st₀ p = Except.error m := by
  constructor
  · induction h with
    | init => exact List.Pairwise.nil
    | step st₁ pl row st' hr hok ih => exact insertUser_preserves_uniqueCreds ih hok
  · intro st₀ pl u e hpu hpe hdup
    by_cases hu : usernameTaken st₀ u = true
    · exact insertUser_error_of_usernameTaken st₀ pl u hpu hu
    · rw [Bool.not_eq_true] at hu
      rcases hdup with hd | hd
      · rw [hd] at hu
        exact absurd hu (by simp)
      · exact ⟨"duplicate key value violates unique constraint \"users_email_key\"",
          insertUser_error_of_emailTaken st₀ pl u e hpu hpe hu hd⟩

/-- Claim C7 witness: the one-user store reached by a concrete successful
insert from the empty store satisfies the invariant, and the store rejects
duplicate usernames and emails in every state. -/
theorem store_unique_username_email_invariant_witness :
    UniqueCreds ⟨[⟨0, "henry", "henry@example.com", "h1"⟩], 1⟩ ∧
    ∀ (st₀ : StoreState) (p : InsertPayload) (u e : String),
      p.username = some u → p.email = some e →
      (usernameTaken st₀ u = true ∨ emailTaken st₀ e = true) →
      ∃ m, insertUser st₀ p = Except.error m :=
  store_unique_username_email_invariant
    ⟨[⟨0, "henry", "henry@example.com", "h1"⟩], 1⟩
    (Reachable.step ⟨[], 0⟩ ⟨some "henry", some "henry@example.com", "h1"⟩
      ⟨0, "henry", "henry@example.com", "h1"⟩
      ⟨[⟨0, "henry", "henry@example.com", "h1"⟩], 1⟩ Reachable.init rfl)

/-- Claim C8: the handler validates nothing: the three destructured fields
are passed through unchanged — whatever their value, the empty string
included — so any fresh username/email pair registers and the stored row
carries the unvalidated fields verbatim with the hashed password; an absent
username is likewise forwarded to the store, whose not-null constraint, not
the handler, rejects it. -/
theorem register_no_input_validation_passthrough (salt : Nat) (st : StoreState)
    (u e p : String) (extra : List (String × JsonValue))
    (hu : usernameTaken st u = false) (he : emailTaken st e = false) :
    registerHandler salt ⟨some u, some e, some p, extra⟩ st
      = HandlerOutcome.response
          ⟨201, JsonValue.arr [rowToJson ⟨st.nextId, u, e, bcryptHash salt p 10⟩]⟩
          ⟨st.rows ++ [⟨st.nextId, u, e, bcryptHash salt p 10⟩], st.nextId + 1⟩ ∧
    registerHandler salt ⟨none, some e, some p, extra⟩ st
      = HandlerOutcome.response
          ⟨400, JsonValue.obj [("error", JsonValue.str
            "null value in column \"username\" of relation \"users\" violates not-null constraint")]⟩
          st := by
  constructor
  · exact registerHandler_insert_ok salt ⟨some u, some e, some p, extra⟩ st p
      ⟨st.nextId, u, e, bcryptHash salt p 10⟩
      ⟨st.rows ++ [⟨st.nextId, u, e, bcryptHash salt p 10⟩], st.nextId + 1⟩ rfl
      (insertUser_ok_intro st u e (bcryptHash salt p 10) hu he)
  · exact registerHandler_insert_error salt ⟨none, some e, some p, extra⟩ st p
      "null value in column \"username\" of relation \"users\" violates not-null constraint"
      rfl rfl

/-- Claim C8 witness: an empty-string password is hashed and its hash stored
— the request is not rejected — and an absent username is forwarded to the
store and rejected there. -/
theorem register_no_input_validation_passthrough_witness :
    registerHandler 3 ⟨some "dave", some "dave@example.com", some "",
        [("role", JsonValue.str "admin")]⟩ ⟨[], 0⟩
      = HandlerOutcome.response
          ⟨201, JsonValue.arr [rowToJson ⟨0, "dave", "dave@example.com", bcryptHash 3 "" 10⟩]⟩
          ⟨[⟨0, "dave", "dave@example.com", bcryptHash 3 "" 10⟩], 1⟩ ∧
    registerHandler 3 ⟨none, some "dave@example.com", some "",
        [("role", JsonValue.str "admin")]⟩ ⟨[], 0⟩
      = HandlerOutcome.response
          ⟨400, JsonValue.obj [("error", JsonValue.str
            "null value in column \"username\" of relation \"users\" violates not-null constraint")]⟩
          ⟨[], 0⟩ :=
  register_no_input_validation_passthrough 3 ⟨[], 0⟩ "dave" "dave@example.com" ""
    [("role", JsonValue.str "admin")] rfl rfl

/-- Claim C9: two request bodies agreeing on `username`, `email` and
`password` produce identical handler runs — same store effect, same response
— whatever other fields their bodies carry: the destructuring on entry reads
only those three fields. -/
theorem register_extra_body_fields_irrelevant (salt : Nat) (st : StoreState)
    (req₁ req₂ : RequestBody) (hu : req₁.username = req₂.username)
    (he : req₁.email = req₂.email) (hp : req₁.password = req₂.password) :
    registerHandler salt req₁ st = registerHandler salt req₂ st := by
  unfold registerHandler
  simp only [hu, he, hp]

/-- Claim C9 witness: a body with extra fields and one without produce the
same concrete handler run. -/
theorem register_extra_body_fields_irrelevant_witness :
    registerHandler 0 ⟨some "ivy", some "ivy@example.com", some "pw4", []⟩ ⟨[], 0⟩
      = registerHandler 0 ⟨some "ivy", some "ivy@example.com", some "pw4",
          [("isAdmin", JsonValue.str "yes"), ("bio", JsonValue.str "hi")]⟩ ⟨[], 0⟩ :=
  register_extra_body_fields_irrelevant 0 ⟨[], 0⟩
    ⟨some "ivy", some "ivy@example.com", some "pw4", []⟩
    ⟨some "ivy", some "ivy@example.com", some "pw4",
      [("isAdmin", JsonValue.str "yes"), ("bio", JsonValue.str "hi")]⟩ rfl rfl rfl

/-- Claim C10: whenever the hashing step returns a hash (and the store call,
which always resolves to data or error, has returned), the handler sends
exactly one response, and its status is 201 or 400 — never anything else. -/
theorem register_single_response_201_or_400 (salt : Nat) (req : RequestBody)
    (st : StoreState) (p : String) (hp : req.password = some p) :
    ∃ r st', registerHandler salt req st = HandlerOutcome.response r st' ∧
      (r.status = 201 ∨ r.status = 400) := by
  cases hins : insertUser st ⟨req.username, req.email, bcryptHash salt p 10⟩ with
  | error m =>
    exact ⟨⟨400, JsonValue.obj [("error", JsonValue.str m)]⟩, st,
      registerHandler_insert_error salt req st p m hp hins, Or.inr rfl⟩
  | ok x =>
    obtain ⟨row, st'⟩ := x
    exact ⟨⟨201, JsonValue.arr [rowToJson row]⟩, st',
      registerHandler_insert_ok salt req st p row st' hp hins, Or.inl rfl⟩

/-- Claim C10 witness: a concrete registration resolves to a single response
with status 201 or 400. -/
theorem register_single_response_201_or_400_witness :
    ∃ r st', registerHandler 0 ⟨some "jack", some "jack@example.com", some "pw5", []⟩
        ⟨[], 0⟩ = HandlerOutcome.response r st' ∧
      (r.status = 201 ∨ r.status = 400) :=
  register_single_response_201_or_400 0
    ⟨some "jack", some "jack@example.com", some "pw5", []⟩ ⟨[], 0⟩ "pw5" rfl

end BlogApp
